import Mathlib

/-!
Verification of the state model of `src/app/page.tsx` (the multi-video
player page).  The component keeps:

* `videos`   : the Media Registry, an ordered list of `{ id, url }` entries
               (`useState<{id: string; url: string}[]>`);
* `videoRefs`: the Element Binding Table, a `Map<string, HTMLVideoElement>`
               held in a ref;
* `globalVolume : number`, `isMuted : bool`, `isPlaying : bool` — the
  Control State, initialised to `(0.5, false, true)`.

The embedding below is a transaction semantics: each user-visible operation
(drop, remove, clear, set volume, toggle mute, toggle play/pause, binding a
video element, teardown) maps a state to a new state together with the list
of external events it emits (object-URL revocations, play/pause commands,
logged play errors).

Two pieces of React semantics are modelled explicitly because the claims
depend on them:

1. The cleanup `useEffect(() => () => videos.forEach(v =>
   URL.revokeObjectURL(v.url)), [videos])` registers, at every commit where
   `videos` changed, a cleanup closure over the *current* `videos` array;
   that closure runs at the *next* commit where `videos` changes (and at
   unmount).  Since every `setVideos` updater in the file returns a fresh
   array, every drop/remove/clear commit runs the previously registered
   cleanup.  The state field `cleanupCaptured` holds the entry list captured
   by the currently registered cleanup.

2. `clearAllVideos` is `useCallback(..., [])`: its closure over `videos` is
   the one from the first render, where `videos = []`.  The state field
   `mountVideos` holds that captured initial list (always `[]` in any state
   reachable from `initState`); the `forEach` inside `clearAllVideos`
   iterates over it.

File media types are strings (`file.type`), matched with
`startsWith "video/"` exactly as in `handleDrop`.  Fresh ids
(`crypto.randomUUID()`) and fresh object URLs (`URL.createObjectURL`) are
modelled by the counters `nextId` and `nextUrl`; an object URL is an opaque
token paired with the file whose bytes it references.
-/

/-- A dropped file: its media type string (`file.type`) and an opaque
content identity. -/
structure DFile where
  ftype : String
  content : Nat
deriving DecidableEq, Repr

/-- An object URL produced by `URL.createObjectURL(file)`: a fresh opaque
token referencing the file's data. -/
structure SrcUrl where
  token : Nat
  file : DFile
deriving DecidableEq, Repr

/-- One Media Registry entry, as in
`{ id: crypto.randomUUID(), url: URL.createObjectURL(file) }`. -/
structure Entry where
  id : Nat
  url : SrcUrl
deriving DecidableEq, Repr

/-- A bound `HTMLVideoElement` handle: the writable properties the page
touches (`volume`, `muted`) and whether a `play()` call on it succeeds
(autoplay policy may reject it). -/
structure Handle where
  volume : ℚ
  muted : Bool
  canPlay : Bool
deriving DecidableEq, Repr

/-- Externally observable events emitted by an operation. -/
inductive Ev where
  | revoke (token : Nat)
  | play (id : Nat)
  | pause (id : Nat)
  | logError (id : Nat)
deriving DecidableEq, Repr

/-- The component state of `VideoPlayerPage`. -/
structure AppState where
  /-- `videos` state: the Media Registry, in insertion order. -/
  videos : List Entry
  /-- `videoRefs.current`: the Element Binding Table (a `Map`, modelled as
  an association list in insertion order). -/
  refsTable : List (Nat × Handle)
  /-- `globalVolume` state. -/
  globalVolume : ℚ
  /-- `isMuted` state. -/
  isMuted : Bool
  /-- `isPlaying` state. -/
  isPlaying : Bool
  /-- freshness counter for `crypto.randomUUID()`. -/
  nextId : Nat
  /-- freshness counter for `URL.createObjectURL`. -/
  nextUrl : Nat
  /-- the `videos` array captured by the currently registered cleanup of
  the object-URL `useEffect` (dependency array `[videos]`). -/
  cleanupCaptured : List Entry
  /-- the `videos` array captured by `clearAllVideos`'s `useCallback`
  closure (dependency array `[]`, hence the first-render value). -/
  mountVideos : List Entry
deriving DecidableEq, Repr

/-- Initial component state: empty registry and table,
`globalVolume = 0.5`, `isMuted = false`, `isPlaying = true`; the mount
effect registers a cleanup over the initial empty `videos`. -/
def initState : AppState :=
  { videos := []
    refsTable := []
    globalVolume := (1 : ℚ) / 2
    isMuted := false
    isPlaying := true
    nextId := 0
    nextUrl := 0
    cleanupCaptured := []
    mountVideos := [] }

/-- Commit a new `videos` array.  Every `setVideos` updater in the source
returns a fresh array, so the `[videos]` effect's dependencies always
differ: React runs the previously registered cleanup — revoking every URL
it captured — and registers a new cleanup over the new array. -/
def commitVideos (s : AppState) (newVideos : List Entry) :
    AppState × List Ev :=
  ({ s with videos := newVideos, cleanupCaptured := newVideos },
   s.cleanupCaptured.map (fun e => Ev.revoke e.url.token))

/-- Character-sequence prefix test: `charsStartWith s p` holds exactly when
`p` is a prefix of `s`.  This is the meaning of JavaScript's
`String.prototype.startsWith` (and of Lean's `String.startsWith`), spelled
out on the character list so that it evaluates by kernel reduction. -/
def charsStartWith : List Char → List Char → Bool
  | _, [] => true
  | [], _ :: _ => false
  | c :: s, d :: p => c == d && charsStartWith s p

/-- `file.type.startsWith('video/')`. -/
def isVideoType (t : String) : Bool :=
  charsStartWith t.data "video/".data

/-- `files.filter(file => file.type.startsWith('video/'))`. -/
def videoFilter (files : List DFile) : List DFile :=
  files.filter (fun f => isVideoType f.ftype)

/-- `videoFiles.map(file => ({ id: crypto.randomUUID(), url:
URL.createObjectURL(file) }))`, with fresh ids and URL tokens drawn from
the counters. -/
def mkEntries : Nat → Nat → List DFile → List Entry
  | _, _, [] => []
  | i, u, f :: fs =>
      { id := i, url := { token := u, file := f } } :: mkEntries (i + 1) (u + 1) fs

/-- `handleDrop`: filter the payload to video-typed files, create an entry
per accepted file, append with `setVideos(prev => [...prev, ...newVideos])`,
then commit. -/
def handleDrop (s : AppState) (files : List DFile) : AppState × List Ev :=
  let vf := videoFilter files
  let s1 := { s with nextId := s.nextId + vf.length, nextUrl := s.nextUrl + vf.length }
  commitVideos s1 (s.videos ++ mkEntries s.nextId s.nextUrl vf)

/-- `Map.delete` on the binding table. -/
def tblDelete (t : List (Nat × Handle)) (id : Nat) : List (Nat × Handle) :=
  t.filter (fun p => p.1 ≠ id)

/-- `Map.set` on the binding table: replace in place when the key exists,
otherwise append (JS `Map` insertion-order semantics). -/
def tblSet (t : List (Nat × Handle)) (id : Nat) (h : Handle) :
    List (Nat × Handle) :=
  if t.any (fun p => p.1 = id) then
    t.map (fun p => if p.1 = id then (id, h) else p)
  else t ++ [(id, h)]

/-- `Map.get` on the binding table. -/
def tblGet (t : List (Nat × Handle)) (id : Nat) : Option Handle :=
  (t.find? (fun p => p.1 = id)).map (fun p => p.2)

/-- `removeVideo(id)`: the updater revokes the found entry's URL and
filters it out of `videos`; `videoRefs.current.delete(id)` runs
unconditionally; the commit then fires the `[videos]` effect cleanup. -/
def removeVideo (s : AppState) (id : Nat) : AppState × List Ev :=
  let ev1 : List Ev :=
    match s.videos.find? (fun v => v.id = id) with
    | some v => [Ev.revoke v.url.token]
    | none => []
  let s1 := { s with refsTable := tblDelete s.refsTable id }
  let (s2, ev2) := commitVideos s1 (s.videos.filter (fun v => v.id ≠ id))
  (s2, ev1 ++ ev2)

/-- `clearAllVideos`: the `useCallback([])` closure's `videos` is the
first-render (mount) value, so the `forEach` revokes the URLs of
`mountVideos`; then `setVideos([])` and `videoRefs.current.clear()`; the
commit fires the `[videos]` effect cleanup. -/
def clearAllVideos (s : AppState) : AppState × List Ev :=
  let ev1 := s.mountVideos.map (fun e => Ev.revoke e.url.token)
  let s1 := { s with refsTable := [] }
  let (s2, ev2) := commitVideos s1 []
  (s2, ev1 ++ ev2)

/-- The `[globalVolume, isMuted]` effect: write `volume` and `muted` to
every handle currently in the binding table. -/
def broadcast (s : AppState) : AppState :=
  { s with
      refsTable := s.refsTable.map (fun p =>
        (p.1, { p.2 with volume := s.globalVolume, muted := s.isMuted })) }

/-- `setGlobalVolume(parseFloat(e.target.value))` followed by the
`[globalVolume, isMuted]` effect.  The handler stores the parsed value
verbatim; no clamping occurs in the code. -/
def setVolumeOp (s : AppState) (v : ℚ) : AppState :=
  broadcast { s with globalVolume := v }

/-- `toggleMute` followed by the `[globalVolume, isMuted]` effect. -/
def toggleMute (s : AppState) : AppState :=
  broadcast { s with isMuted := !s.isMuted }

/-- `togglePlayPause`: if `isPlaying`, `pause()` every bound element;
otherwise `play()` every bound element, with a `.catch` that logs the
error of each element whose playback start fails; finally
`setIsPlaying(!isPlaying)`. -/
def togglePlayPause (s : AppState) : AppState × List Ev :=
  if s.isPlaying then
    ({ s with isPlaying := false }, s.refsTable.map (fun p => Ev.pause p.1))
  else
    ({ s with isPlaying := true },
     s.refsTable.flatMap (fun p =>
       Ev.play p.1 :: if p.2.canPlay then [] else [Ev.logError p.1]))

/-- `setVideoRef(element, id)` with a mounted element: write the current
`globalVolume` and `isMuted` to the element, then register it in the
table. -/
def bindRef (s : AppState) (id : Nat) (h : Handle) : AppState :=
  { s with
      refsTable :=
        tblSet s.refsTable id
          { h with volume := s.globalVolume, muted := s.isMuted } }

/-- `setVideoRef(null, id)` on unmount: delete the id from the table. -/
def unbindRef (s : AppState) (id : Nat) : AppState :=
  { s with refsTable := tblDelete s.refsTable id }

/-- Component unmount (page/session teardown): React runs the currently
registered cleanup of the `[videos]` effect. -/
def teardown (s : AppState) : AppState × List Ev :=
  (s, s.cleanupCaptured.map (fun e => Ev.revoke e.url.token))

/-- The operations a user or the browser can trigger on the page. -/
inductive Op where
  | drop (files : List DFile)
  | remove (id : Nat)
  | clear
  | setVolume (v : ℚ)
  | toggleMute
  | togglePlay
  | bind (id : Nat) (h : Handle)
  | unbind (id : Nat)
  | teardown
deriving DecidableEq, Repr

/-- One transaction: the state transition and emitted events of an
operation. -/
def step (s : AppState) : Op → AppState × List Ev
  | Op.drop files => handleDrop s files
  | Op.remove id => removeVideo s id
  | Op.clear => clearAllVideos s
  | Op.setVolume v => (setVolumeOp s v, [])
  | Op.toggleMute => (toggleMute s, [])
  | Op.togglePlay => togglePlayPause s
  | Op.bind id h => (bindRef s id h, [])
  | Op.unbind id => (unbindRef s id, [])
  | Op.teardown => teardown s

/-- Run a sequence of operations, accumulating emitted events in order. -/
def runOps (s : AppState) : List Op → AppState × List Ev
  | [] => (s, [])
  | op :: ops =>
      let (s1, ev1) := step s op
      let (s2, ev2) := runOps s1 ops
      (s2, ev1 ++ ev2)

/-! ### Concrete fixtures used by witnesses and counterexamples -/

/-- A video-typed file. -/
def fileA : DFile := { ftype := "video/mp4", content := 10 }

/-- A second video-typed file. -/
def fileB : DFile := { ftype := "video/webm", content := 11 }

/-- A non-video file. -/
def fileT : DFile := { ftype := "text/plain", content := 12 }

/-- Registry entry for `fileA` as created by the first drop. -/
def entA : Entry := { id := 0, url := { token := 0, file := fileA } }

/-- Registry entry for `fileB` as created by the first drop. -/
def entB : Entry := { id := 1, url := { token := 1, file := fileB } }

/-- A settled state: `fileA` and `fileB` dropped, both elements bound, the
`[videos]` effect cleanup capturing the current registry. -/
def wState : AppState :=
  { videos := [entA, entB]
    refsTable := [(0, { volume := (1 : ℚ) / 2, muted := false, canPlay := true }),
                  (1, { volume := (1 : ℚ) / 2, muted := false, canPlay := false })]
    globalVolume := (1 : ℚ) / 2
    isMuted := false
    isPlaying := true
    nextId := 2
    nextUrl := 2
    cleanupCaptured := [entA, entB]
    mountVideos := [] }

/-! ### Helper lemmas -/

theorem mkEntries_map_file (fs : List DFile) :
    ∀ i u, (mkEntries i u fs).map (fun e => e.url.file) = fs := by
  induction fs with
  | nil => intro i u; rfl
  | cons f fs ih => intro i u; simp [mkEntries, ih]

theorem mkEntries_length (fs : List DFile) :
    ∀ i u, (mkEntries i u fs).length = fs.length := by
  induction fs with
  | nil => intro i u; rfl
  | cons f fs ih => intro i u; simp [mkEntries, ih]

theorem handleDrop_videos (s : AppState) (files : List DFile) :
    (handleDrop s files).1.videos =
      s.videos ++ mkEntries s.nextId s.nextUrl (videoFilter files) := rfl

theorem removeVideo_videos (s : AppState) (id : Nat) :
    (removeVideo s id).1.videos = s.videos.filter (fun v => v.id ≠ id) := rfl

theorem removeVideo_refsTable (s : AppState) (id : Nat) :
    (removeVideo s id).1.refsTable = tblDelete s.refsTable id := rfl

theorem filter_idem {α : Type} (p : α → Bool) (l : List α) :
    (l.filter p).filter p = l.filter p := by
  simp [List.filter_filter]

theorem tblGet_append_self (t : List (Nat × Handle)) (id : Nat) (h : Handle)
    (hk : t.any (fun p => p.1 = id) = false) :
    tblGet (t ++ [(id, h)]) id = some h := by
  induction t with
  | nil => simp [tblGet]
  | cons a t ih =>
    rw [List.any_cons, Bool.or_eq_false_iff] at hk
    have ha : ¬ (a.1 = id) := by simpa using hk.1
    rw [List.cons_append]
    show tblGet (a :: (t ++ [(id, h)])) id = some h
    rw [tblGet, List.find?_cons_of_neg _ (by simpa using ha)]
    exact ih hk.2

theorem tblGet_map_set (t : List (Nat × Handle)) (id : Nat) (h : Handle)
    (hk : t.any (fun p => p.1 = id) = true) :
    tblGet (t.map (fun p => if p.1 = id then (id, h) else p)) id = some h := by
  induction t with
  | nil => simp at hk
  | cons a t ih =>
    by_cases ha : a.1 = id
    · rw [List.map_cons, if_pos ha, tblGet,
        List.find?_cons_of_pos _ (by simp)]
      rfl
    · have hk' : t.any (fun p => p.1 = id) = true := by
        rw [List.any_cons] at hk
        simpa [ha] using hk
      rw [List.map_cons, if_neg ha, tblGet,
        List.find?_cons_of_neg _ (by simpa using ha)]
      exact ih hk'

theorem tblGet_tblSet (t : List (Nat × Handle)) (id : Nat) (h : Handle) :
    tblGet (tblSet t id h) id = some h := by
  unfold tblSet
  split
  next hk => exact tblGet_map_set t id h hk
  next hk => exact tblGet_append_self t id h (Bool.eq_false_iff.mpr hk)

/-- The handle the first registered element carries after the global volume
is set to 3/10. -/
def hA03 : Handle := { volume := (3 : ℚ) / 10, muted := false, canPlay := true }

/-- A freshly mounting element's handle, with stale volume/mute values that
`setVideoRef` must overwrite before registering it. -/
def freshHandle : Handle := { volume := 1, muted := true, canPlay := true }

/-- `wState` with the transport in the Paused state. -/
def pausedState : AppState := { wState with isPlaying := false }

/-- **C1.** The spec guarantees each entry's object URL is released exactly
once over the entry's lifetime.  The code violates this: the object-URL
cleanup `useEffect` has `[videos]` as its dependency array, so its cleanup
— which revokes every URL of the `videos` array it captured — runs at
every change of `videos`, not only at unmount as the source comment
intends.  Dropping `fileA`, then `fileB`, then tearing down revokes A's
URL (token 0) twice: once when the second drop commits and once at
teardown; the first revocation happens while A is still registered. -/
theorem c1_url_released_twice :
    ((runOps initState [Op.drop [fileA], Op.drop [fileB], Op.teardown]).2.count
        (Ev.revoke 0) = 2) ∧
    ((runOps initState [Op.drop [fileA], Op.drop [fileB]]).1.videos.map
        (fun e => e.url.token) = [0, 1]) ∧
    ((runOps initState [Op.drop [fileA], Op.drop [fileB]]).2.count
        (Ev.revoke 0) = 1) := by
  decide

/-- **C3.** `handleDrop` appends exactly one entry per video-typed file of
the payload, at the end of the registry, in payload order (the appended
entries' underlying files are exactly the video-typed files in order);
non-video files are discarded, and a payload with no video-typed files
leaves the registry's contents unchanged. -/
theorem c3_drop_appends_video_files (s : AppState) (files : List DFile) :
    ((handleDrop s files).1.videos.take s.videos.length = s.videos) ∧
    (((handleDrop s files).1.videos.drop s.videos.length).map
        (fun e => e.url.file) = videoFilter files) ∧
    ((handleDrop s files).1.videos.length
        = s.videos.length + (videoFilter files).length) ∧
    (videoFilter files = [] → (handleDrop s files).1.videos = s.videos) := by
  refine ⟨?_, ?_, ?_, ?_⟩
  · rw [handleDrop_videos]; exact List.take_left _ _
  · rw [handleDrop_videos, List.drop_left]; exact mkEntries_map_file _ _ _
  · rw [handleDrop_videos]; simp [mkEntries_length]
  · intro h; rw [handleDrop_videos, h]; simp [mkEntries]

/-- Witness for C3: a mixed payload `[fileA, fileT, fileB]` appends the two
video files in order, and a payload with only a text file leaves the
registry unchanged. -/
theorem c3_drop_appends_video_files_witness :
    ((handleDrop initState [fileA, fileT, fileB]).1.videos.take
        initState.videos.length = initState.videos) ∧
    (((handleDrop initState [fileA, fileT, fileB]).1.videos.drop
        initState.videos.length).map (fun e => e.url.file)
        = videoFilter [fileA, fileT, fileB]) ∧
    ((handleDrop initState [fileT]).1.videos = initState.videos) :=
  ⟨(c3_drop_appends_video_files initState [fileA, fileT, fileB]).1,
   (c3_drop_appends_video_files initState [fileA, fileT, fileB]).2.1,
   (c3_drop_appends_video_files initState [fileT]).2.2.2 (by decide)⟩

/-- **C2.** In any settled state (the registered `[videos]` effect cleanup
captures the current registry, and `clearAllVideos`'s stale closure
captures the mount-time empty registry), the clear transaction empties the
registry, empties the binding table, and its emitted events revoke exactly
the URLs of the entries held at clear time — once each when the URL tokens
are distinct, as freshness guarantees. -/
theorem c2_clear_releases_each_once (s : AppState)
    (hset : s.cleanupCaptured = s.videos)
    (hmount : s.mountVideos = [])
    (hnodup : (s.videos.map (fun e => e.url.token)).Nodup) :
    ((clearAllVideos s).1.videos = []) ∧
    ((clearAllVideos s).1.refsTable = []) ∧
    ((clearAllVideos s).2 = s.videos.map (fun e => Ev.revoke e.url.token)) ∧
    (∀ e ∈ s.videos,
      (clearAllVideos s).2.count (Ev.revoke e.url.token) = 1) := by
  have hev : (clearAllVideos s).2
      = s.videos.map (fun e => Ev.revoke e.url.token) := by
    simp [clearAllVideos, commitVideos, hset, hmount]
  refine ⟨rfl, rfl, hev, ?_⟩
  intro e he
  rw [hev]
  have hcomp : (fun e : Entry => Ev.revoke e.url.token)
      = Ev.revoke ∘ (fun e : Entry => e.url.token) := rfl
  rw [hcomp, ← List.map_map]
  rw [List.count_map_of_injective _ Ev.revoke
    (fun a b hab => by simpa using hab) e.url.token]
  exact List.count_eq_one_of_mem hnodup (List.mem_map_of_mem _ he)

/-- Witness for C2: clearing the settled two-video state empties both
structures and revokes `entA`'s URL exactly once. -/
theorem c2_clear_releases_each_once_witness :
    ((clearAllVideos wState).1.videos = []) ∧
    ((clearAllVideos wState).1.refsTable = []) ∧
    ((clearAllVideos wState).2
        = wState.videos.map (fun e => Ev.revoke e.url.token)) ∧
    ((clearAllVideos wState).2.count (Ev.revoke entA.url.token) = 1) :=
  ⟨(c2_clear_releases_each_once wState (by decide) (by decide) (by decide)).1,
   (c2_clear_releases_each_once wState (by decide) (by decide) (by decide)).2.1,
   (c2_clear_releases_each_once wState (by decide) (by decide) (by decide)).2.2.1,
   (c2_clear_releases_each_once wState (by decide) (by decide) (by decide)).2.2.2
     entA (by decide)⟩

/-- **C6.** In any state satisfying the binding-table invariant (every
bound id belongs to a registered entry), `removeVideo id` removes exactly
the entry with that id from the registry and the table — the result is a
sublist of the original (relative order of survivors unchanged), every
other entry and binding survives, and no trace of `id` remains — while
removing an id absent from the registry changes neither structure. -/
theorem c6_remove_frame_effect (s : AppState) (id : Nat)
    (hinv : ∀ p ∈ s.refsTable, ∃ e ∈ s.videos, e.id = p.1) :
    ((removeVideo s id).1.videos.Sublist s.videos) ∧
    (∀ e ∈ s.videos, e.id ≠ id → e ∈ (removeVideo s id).1.videos) ∧
    (∀ e ∈ (removeVideo s id).1.videos, e.id ≠ id) ∧
    (∀ p ∈ s.refsTable, p.1 ≠ id → p ∈ (removeVideo s id).1.refsTable) ∧
    (∀ p ∈ (removeVideo s id).1.refsTable, p.1 ≠ id) ∧
    ((∀ e ∈ s.videos, e.id ≠ id) →
      (removeVideo s id).1.videos = s.videos ∧
      (removeVideo s id).1.refsTable = s.refsTable) := by
  refine ⟨?_, ?_, ?_, ?_, ?_, ?_⟩
  · rw [removeVideo_videos]; exact List.filter_sublist _
  · intro e he hne
    rw [removeVideo_videos]
    exact List.mem_filter.mpr ⟨he, by simpa using hne⟩
  · intro e he
    rw [removeVideo_videos] at he
    simpa using (List.mem_filter.mp he).2
  · intro p hp hne
    rw [removeVideo_refsTable]
    exact List.mem_filter.mpr ⟨hp, by simpa using hne⟩
  · intro p hp
    rw [removeVideo_refsTable] at hp
    simpa using (List.mem_filter.mp hp).2
  · intro habs
    constructor
    · rw [removeVideo_videos]
      exact List.filter_eq_self.mpr (fun e he => by simpa using habs e he)
    · rw [removeVideo_refsTable]
      refine List.filter_eq_self.mpr (fun p hp => ?_)
      obtain ⟨e, he, heq⟩ := hinv p hp
      simpa using heq ▸ habs e he

/-- Witness for C6: removing id 0 from the settled two-video state keeps
`entB` and its binding; removing the absent id 5 changes nothing. -/
theorem c6_remove_frame_effect_witness :
    ((removeVideo wState 0).1.videos.Sublist wState.videos) ∧
    (entB ∈ (removeVideo wState 0).1.videos) ∧
    ((1, { volume := (1 : ℚ) / 2, muted := false, canPlay := false })
        ∈ (removeVideo wState 0).1.refsTable) ∧
    ((removeVideo wState 5).1.videos = wState.videos ∧
      (removeVideo wState 5).1.refsTable = wState.refsTable) :=
  ⟨(c6_remove_frame_effect wState 0 (by decide)).1,
   (c6_remove_frame_effect wState 0 (by decide)).2.1 entB (by decide) (by decide),
   (c6_remove_frame_effect wState 0 (by decide)).2.2.2.1
     (1, { volume := (1 : ℚ) / 2, muted := false, canPlay := false })
     (by simp [wState]) (by decide),
   (c6_remove_frame_effect wState 5 (by decide)).2.2.2.2.2 (by decide)⟩

/-- **C9.** `removeVideo` is idempotent on the registry and the binding
table: removing the same id twice yields the same `videos` and `refsTable`
as removing it once. -/
theorem c9_remove_idempotent (s : AppState) (id : Nat) :
    ((removeVideo (removeVideo s id).1 id).1.videos
        = (removeVideo s id).1.videos) ∧
    ((removeVideo (removeVideo s id).1 id).1.refsTable
        = (removeVideo s id).1.refsTable) := by
  constructor
  · simp only [removeVideo_videos]
    exact filter_idem _ _
  · simp only [removeVideo_refsTable, tblDelete]
    exact filter_idem _ _

/-- **C10.** `handleDrop` never modifies Control State (`globalVolume`,
`isMuted`, `isPlaying`), leaves the binding table untouched, and keeps the
existing registry entries — ids, source references, order — as an
unchanged prefix. -/
theorem c10_drop_preserves_control_state (s : AppState) (files : List DFile) :
    ((handleDrop s files).1.globalVolume = s.globalVolume) ∧
    ((handleDrop s files).1.isMuted = s.isMuted) ∧
    ((handleDrop s files).1.isPlaying = s.isPlaying) ∧
    ((handleDrop s files).1.videos.take s.videos.length = s.videos) ∧
    ((handleDrop s files).1.refsTable = s.refsTable) := by
  refine ⟨rfl, rfl, rfl, ?_, rfl⟩
  rw [handleDrop_videos]; exact List.take_left _ _

/-- **C4.** After the set-global-volume transaction with value `v`, every
handle in the binding table carries volume `v` (and the current mute
flag); and an element bound afterwards is initialised by `setVideoRef`
with the current `globalVolume` and `isMuted` before registration, so its
stored handle already carries `v` with no further broadcast. -/
theorem c4_volume_fanout_and_bind_init (s : AppState) (v : ℚ) (id : Nat)
    (h : Handle) :
    (∀ p ∈ (setVolumeOp s v).refsTable,
        p.2.volume = v ∧ p.2.muted = s.isMuted) ∧
    (tblGet (bindRef (setVolumeOp s v) id h).refsTable id
        = some { h with volume := v, muted := s.isMuted }) := by
  constructor
  · intro p hp
    simp only [setVolumeOp, broadcast] at hp
    obtain ⟨q, _, rfl⟩ := List.mem_map.mp hp
    exact ⟨rfl, rfl⟩
  · exact tblGet_tblSet _ id _

/-- Witness for C4: in the settled two-video state, setting the volume to
3/10 leaves the first bound handle at 3/10, and binding a fresh element
with stale values afterwards registers it at 3/10, unmuted. -/
theorem c4_volume_fanout_and_bind_init_witness :
    ((0, hA03) ∈ (setVolumeOp wState ((3 : ℚ) / 10)).refsTable) ∧
    (hA03.volume = (3 : ℚ) / 10 ∧ hA03.muted = wState.isMuted) ∧
    (tblGet (bindRef (setVolumeOp wState ((3 : ℚ) / 10)) 7
        freshHandle).refsTable 7
      = some { freshHandle with volume := (3 : ℚ) / 10, muted := wState.isMuted }) :=
  ⟨by simp [setVolumeOp, broadcast, wState, hA03],
   (c4_volume_fanout_and_bind_init wState ((3 : ℚ) / 10) 7 freshHandle).1
     (0, hA03) (by simp [setVolumeOp, broadcast, wState, hA03]),
   (c4_volume_fanout_and_bind_init wState ((3 : ℚ) / 10) 7 freshHandle).2⟩

/-- **C5.** The aggregate transport is a two-state machine on `isPlaying`
with initial state Playing (`true`): toggling in Playing emits a pause
command to every bound handle (exactly one each, in table order) and moves
to Paused; toggling in Paused emits a play command to every bound handle
and moves to Playing; and every operation other than the toggle preserves
`isPlaying`. -/
theorem c5_transport_state_machine (s : AppState) (op : Op) :
    (initState.isPlaying = true) ∧
    (s.isPlaying = true →
      (togglePlayPause s).1.isPlaying = false ∧
      (togglePlayPause s).2 = s.refsTable.map (fun p => Ev.pause p.1)) ∧
    (s.isPlaying = false →
      (togglePlayPause s).1.isPlaying = true ∧
      ∀ p ∈ s.refsTable, Ev.play p.1 ∈ (togglePlayPause s).2) ∧
    (op ≠ Op.togglePlay → (step s op).1.isPlaying = s.isPlaying) := by
  refine ⟨rfl, ?_, ?_, ?_⟩
  · intro hp
    constructor
    · simp [togglePlayPause, hp]
    · simp [togglePlayPause, hp]
  · intro hp
    have hev : (togglePlayPause s).2 = s.refsTable.flatMap (fun p =>
        Ev.play p.1 :: if p.2.canPlay then [] else [Ev.logError p.1]) := by
      simp [togglePlayPause, hp]
    constructor
    · simp [togglePlayPause, hp]
    · intro p hmem
      rw [hev]
      exact List.mem_flatMap.mpr ⟨p, hmem, List.mem_cons_self _ _⟩
  · intro hne
    cases op with
    | togglePlay => exact absurd rfl hne
    | drop files => rfl
    | remove id => rfl
    | clear => rfl
    | setVolume v => rfl
    | toggleMute => rfl
    | bind id h => rfl
    | unbind id => rfl
    | teardown => rfl

/-- Witness for C5: from the settled Playing state a toggle pauses both
bound handles and lands in Paused; from the Paused state a toggle plays
the first handle and lands in Playing; a drop leaves `isPlaying` alone. -/
theorem c5_transport_state_machine_witness :
    (initState.isPlaying = true) ∧
    ((togglePlayPause wState).1.isPlaying = false ∧
      (togglePlayPause wState).2
        = wState.refsTable.map (fun p => Ev.pause p.1)) ∧
    ((togglePlayPause pausedState).1.isPlaying = true ∧
      Ev.play 0 ∈ (togglePlayPause pausedState).2) ∧
    ((step wState (Op.drop [fileA])).1.isPlaying = wState.isPlaying) :=
  ⟨(c5_transport_state_machine wState (Op.drop [fileA])).1,
   (c5_transport_state_machine wState (Op.drop [fileA])).2.1 rfl,
   ⟨((c5_transport_state_machine pausedState (Op.drop [fileA])).2.2.1 rfl).1,
    ((c5_transport_state_machine pausedState (Op.drop [fileA])).2.2.1 rfl).2
      (0, { volume := (1 : ℚ) / 2, muted := false, canPlay := true })
      (by simp [pausedState, wState])⟩,
   (c5_transport_state_machine wState (Op.drop [fileA])).2.2.2 (by decide)⟩

/-- **C7 counterexample.** The volume `onChange` handler stores
`parseFloat(e.target.value)` verbatim — there is no clamping in the code.
At input 2 the stored Control State value is 2, outside [0, 1], refuting
the claim that the operation stores a clamped value for every input. -/
theorem c7_no_clamping_counterexample :
    (setVolumeOp initState 2).globalVolume = 2 ∧
    ¬ ((setVolumeOp initState 2).globalVolume ≤ 1) := by
  refine ⟨rfl, ?_⟩
  have hv : (setVolumeOp initState 2).globalVolume = 2 := rfl
  rw [hv]
  norm_num

/-- **C7 amended.** The set-global-volume operation stores the input value
`v` verbatim in Control State and writes that stored value to every handle
in the binding table; whenever `v` lies in [0, 1] — which the range input
(`min="0" max="1"`) guarantees for values it delivers — the stored value
lies in [0, 1]. -/
theorem c7_volume_stored_verbatim (s : AppState) (v : ℚ) :
    ((setVolumeOp s v).globalVolume = v) ∧
    (∀ p ∈ (setVolumeOp s v).refsTable, p.2.volume = v) ∧
    (0 ≤ v ∧ v ≤ 1 →
      0 ≤ (setVolumeOp s v).globalVolume ∧
      (setVolumeOp s v).globalVolume ≤ 1) := by
  refine ⟨rfl, ?_, ?_⟩
  · intro p hp
    simp only [setVolumeOp, broadcast] at hp
    obtain ⟨q, _, rfl⟩ := List.mem_map.mp hp
    rfl
  · intro hv
    exact ⟨hv.1, hv.2⟩

/-- Witness for C7 (amended): setting the volume to 3/10 in the settled
state stores 3/10, writes 3/10 to the first bound handle, and 3/10 lies in
[0, 1]. -/
theorem c7_volume_stored_verbatim_witness :
    ((setVolumeOp wState ((3 : ℚ) / 10)).globalVolume = (3 : ℚ) / 10) ∧
    ((0, hA03) ∈ (setVolumeOp wState ((3 : ℚ) / 10)).refsTable) ∧
    (hA03.volume = (3 : ℚ) / 10) ∧
    (0 ≤ (setVolumeOp wState ((3 : ℚ) / 10)).globalVolume ∧
      (setVolumeOp wState ((3 : ℚ) / 10)).globalVolume ≤ 1) :=
  ⟨(c7_volume_stored_verbatim wState ((3 : ℚ) / 10)).1,
   by simp [setVolumeOp, broadcast, wState, hA03],
   (c7_volume_stored_verbatim wState ((3 : ℚ) / 10)).2.1 (0, hA03)
     (by simp [setVolumeOp, broadcast, wState, hA03]),
   (c7_volume_stored_verbatim wState ((3 : ℚ) / 10)).2.2
     ⟨by norm_num, by norm_num⟩⟩

/-- **C8.** Toggling from Paused issues a play command to every bound
handle regardless of individual start failures; each failing handle's
error is logged; and the aggregate state becomes Playing whatever the
per-handle outcomes are. -/
theorem c8_play_failure_isolated (s : AppState) (hs : s.isPlaying = false) :
    ((togglePlayPause s).1.isPlaying = true) ∧
    (∀ p ∈ s.refsTable, Ev.play p.1 ∈ (togglePlayPause s).2) ∧
    (∀ p ∈ s.refsTable, p.2.canPlay = false →
      Ev.logError p.1 ∈ (togglePlayPause s).2) := by
  have hev : (togglePlayPause s).2 = s.refsTable.flatMap (fun p =>
      Ev.play p.1 :: if p.2.canPlay then [] else [Ev.logError p.1]) := by
    simp [togglePlayPause, hs]
  refine ⟨by simp [togglePlayPause, hs], ?_, ?_⟩
  · intro p hp
    rw [hev]
    exact List.mem_flatMap.mpr ⟨p, hp, List.mem_cons_self _ _⟩
  · intro p hp hfail
    rw [hev]
    exact List.mem_flatMap.mpr ⟨p, hp, by simp [hfail]⟩

/-- Witness for C8: in the Paused settled state, whose second handle
cannot start playback, the toggle issues play to both handles, logs the
second one's failure, and lands in Playing. -/
theorem c8_play_failure_isolated_witness :
    ((togglePlayPause pausedState).1.isPlaying = true) ∧
    (Ev.play 0 ∈ (togglePlayPause pausedState).2) ∧
    (Ev.play 1 ∈ (togglePlayPause pausedState).2) ∧
    (Ev.logError 1 ∈ (togglePlayPause pausedState).2) :=
  ⟨(c8_play_failure_isolated pausedState rfl).1,
   (c8_play_failure_isolated pausedState rfl).2.1
     (0, { volume := (1 : ℚ) / 2, muted := false, canPlay := true })
     (by simp [pausedState, wState]),
   (c8_play_failure_isolated pausedState rfl).2.1
     (1, { volume := (1 : ℚ) / 2, muted := false, canPlay := false })
     (by simp [pausedState, wState]),
   (c8_play_failure_isolated pausedState rfl).2.2
     (1, { volume := (1 : ℚ) / 2, muted := false, canPlay := false })
     (by simp [pausedState, wState]) rfl⟩
